import Mathlib

/-!
Verification development for the Kyzylorda incident dashboard backend
(`backend/main.py`).  The Python source is shallowly embedded: strings are
`List Char`, Python floats are `ℚ`, the external collaborators (the Gemini
generation service and the Nominatim geocoding service) are explicit
behaviour functions passed to the embedded operations, and Python
exceptions are `Except` values.
-/

namespace KyzylordaDashboard

/-! ### Character classes and Python string helpers -/

/-- Whitespace stripped by Python `str.strip()` (the ASCII cases). -/
def isPyWs (c : Char) : Bool :=
  c = ' ' ∨ c = '\t' ∨ c = '\n' ∨ c = '\r' ∨ c = '\x0b' ∨ c = '\x0c'

/-- Python `str.strip()`: drop leading and trailing whitespace. -/
def stripList (l : List Char) : List Char :=
  ((l.dropWhile isPyWs).reverse.dropWhile isPyWs).reverse

/-- Worker for `replaceList`, structural on a fuel argument (the fuel is
always at least the input length, so the `0` case is unreachable). -/
def replaceGo (pat rep : List Char) : Nat → List Char → List Char
  | _, [] => []
  | 0, l => l
  | fuel + 1, c :: rest =>
    if pat ≠ [] ∧ pat.isPrefixOf (c :: rest) then
      rep ++ replaceGo pat rep fuel ((c :: rest).drop pat.length)
    else
      c :: replaceGo pat rep fuel rest

/-- Python `str.replace(pat, rep)`: replace every non-overlapping occurrence
of `pat`, scanning left to right (used with a nonempty `pat`). -/
def replaceList (pat rep l : List Char) : List Char :=
  replaceGo pat rep l.length l

/-! ### Geocoding (`geocode_street` in `backend/main.py`)

The Nominatim collaborator is a behaviour function from the query string to
the observable outcome of one candidate iteration of the loop:

* `raised`   — the `requests.get` call, the `.json()` decoding, or the
  `float(...)` parsing of the first result raised an exception (transport
  error, timeout, malformed body); control jumps to the outer `except`;
* `httpError` — `response.status_code != 200`; the loop continues;
* `empty`    — HTTP 200 with an empty result list; the loop continues;
* `hit lat lng` — HTTP 200 and the first result parsed to `lat`/`lng`.
-/

inductive GeoResponse where
  | raised
  | httpError
  | empty
  | hit (lat lng : ℚ)
deriving DecidableEq

/-- The `Coordinates` pydantic model: a latitude/longitude pair. -/
structure Coordinates where
  lat : ℚ
  lng : ℚ
deriving DecidableEq

/-- The bounds check `44.7 < lat < 45.0 and 65.3 < lon < 65.7`. -/
def inBounds (lat lng : ℚ) : Bool :=
  decide (447/10 < lat ∧ lat < 45 ∧ 653/10 < lng ∧ lng < 657/10)

/-- The city-center fallback point `{"lat": 44.8488, "lng": 65.4823}`. -/
def cityCenter : Coordinates :=
  ⟨448488/10000, 654823/10000⟩

/-- The ordered candidate list `search_queries` built by `geocode_street`. -/
def searchQueries (location : List Char) : List (List Char) :=
  [ location ++ (", Кызылорда, Казахстан").data
  , location ++ (", Kyzylorda, Kazakhstan").data
  , stripList (replaceList ("улица").data [] location) ++ (", Кызылорда").data
  , stripList (replaceList ("street").data [] location) ++ (", Kyzylorda").data ]

/-- The candidate loop of `geocode_street`.  A raised exception anywhere in
the loop body is caught by the outer `except`, which returns the city
center; a non-200 status, an empty result, or an out-of-bounds hit moves on
to the next candidate; an in-bounds hit is returned at once; an exhausted
list falls back to the city center. -/
def geoTryQueries (beh : List Char → GeoResponse) : List (List Char) → Coordinates
  | [] => cityCenter
  | q :: rest =>
    match beh q with
    | .raised => cityCenter
    | .httpError => geoTryQueries beh rest
    | .empty => geoTryQueries beh rest
    | .hit lat lng => if inBounds lat lng then ⟨lat, lng⟩ else geoTryQueries beh rest

/-- `geocode_street(location)` under geocoder behaviour `beh`. -/
def geocode_street (beh : List Char → GeoResponse) (location : List Char) : Coordinates :=
  geoTryQueries beh (searchQueries location)

/-- The queries actually sent to the geocoder by `geocode_street`: a raised
exception and an in-bounds hit stop the loop. -/
def geoTrace (beh : List Char → GeoResponse) : List (List Char) → List (List Char)
  | [] => []
  | q :: rest =>
    match beh q with
    | .raised => [q]
    | .httpError => q :: geoTrace beh rest
    | .empty => q :: geoTrace beh rest
    | .hit lat lng => if inBounds lat lng then [q] else q :: geoTrace beh rest

/-- A candidate outcome that lets the loop continue: non-200, empty, or an
out-of-bounds hit. -/
def candidateMisses (beh : List Char → GeoResponse) (q : List Char) : Prop :=
  beh q = .httpError ∨ beh q = .empty ∨
    ∃ la ln, beh q = .hit la ln ∧ inBounds la ln = false

/-- A candidate whose response does not parse to an in-bounds hit. -/
def noValidHit (beh : List Char → GeoResponse) (q : List Char) : Prop :=
  ¬ ∃ la ln, beh q = .hit la ln ∧ inBounds la ln = true

/-! ### Concrete geocoder behaviours used by counterexamples -/

/-- A geocoder behaviour that raises on the first candidate query for the
location `улица Абая` and returns the in-bounds hit `(44.9, 65.5)` for every
other query. -/
def behRaiseFirst : List Char → GeoResponse :=
  fun q =>
    if q = ("улица Абая").data ++ (", Кызылорда, Казахстан").data then .raised
    else .hit (449/10) (131/2)

/-- A geocoder behaviour that raises on the first candidate query for the
location `улица Желтоксан` and returns the in-bounds hit `(44.86, 65.48)`
for every other query. -/
def behRaiseThenHit : List Char → GeoResponse :=
  fun q =>
    if q = ("улица Желтоксан").data ++ (", Кызылорда, Казахстан").data then .raised
    else .hit (4486/100) (6548/100)

/-! ### WebSocket connection manager (`ConnectionManager` in `backend/main.py`)

Connections are kept in a Python `list`; `connect` appends, `disconnect`
calls `list.remove` (which raises `ValueError` when the element is absent),
and `broadcast` loops over the list attempting `send_json` on each
connection inside a `try`/`except` that only logs failures. -/

/-- The Python exceptions that the connection manager can raise. -/
inductive PyExc where
  | valueError
deriving DecidableEq

/-- The manager state: the `active_connections` list. -/
structure ConnectionManager (α : Type) where
  active_connections : List α
deriving DecidableEq

/-- `connect`: accept the socket and append it to the list. -/
def ConnectionManager.connect {α : Type} (m : ConnectionManager α) (ws : α) :
    ConnectionManager α :=
  ⟨m.active_connections ++ [ws]⟩

/-- `disconnect`: `self.active_connections.remove(websocket)` — removes the
first occurrence, raising `ValueError` when the element is absent. -/
def ConnectionManager.disconnect {α : Type} [DecidableEq α]
    (m : ConnectionManager α) (ws : α) : Except PyExc (ConnectionManager α) :=
  if ws ∈ m.active_connections then .ok ⟨m.active_connections.erase ws⟩
  else .error .valueError

/-- `broadcast`: attempt `send_json` on every connection in order, catching
any per-connection failure; returns the attempted deliveries (each
connection paired with its send outcome) together with the manager state
afterwards, which the loop never mutates. -/
def ConnectionManager.broadcast {α ε : Type} (m : ConnectionManager α)
    (send : α → Except ε Unit) : List (α × Except ε Unit) × ConnectionManager α :=
  (m.active_connections.map (fun c => (c, send c)), m)

/-! ### JSON values and `json.loads`

`_extract_json` ends with `json.loads`; we embed the strict JSON grammar it
accepts as a recursive-descent reader over `List Char` (structural on a
fuel argument for totality — the fuel is the input length plus one, which
always suffices since every step consumes input). -/

inductive Json where
  | null
  | bool (b : Bool)
  | num (q : ℚ)
  | str (s : List Char)
  | arr (elems : List Json)
  | obj (fields : List (List Char × Json))

/-- Lookup in a parsed object, mirroring the Python dict built by
`json.loads`: a duplicated key keeps the last binding. -/
def jlookup (fields : List (List Char × Json)) (key : List Char) : Option Json :=
  fields.foldl (fun acc p => if p.1 = key then some p.2 else acc) none

/-- JSON whitespace accepted between tokens by `json.loads`. -/
def isJsonWs (c : Char) : Bool :=
  c = ' ' ∨ c = '\t' ∨ c = '\n' ∨ c = '\r'

def skipWs (l : List Char) : List Char :=
  l.dropWhile isJsonWs

def hexVal (c : Char) : Option Nat :=
  if '0' ≤ c ∧ c ≤ '9' then some (c.toNat - 48)
  else if 'a' ≤ c ∧ c ≤ 'f' then some (c.toNat - 87)
  else if 'A' ≤ c ∧ c ≤ 'F' then some (c.toNat - 55)
  else none

/-- The single-character string escapes accepted by `json.loads`. -/
def escMap (e : Char) : Option Char :=
  if e = '"' then some '"'
  else if e = '\\' then some '\\'
  else if e = '/' then some '/'
  else if e = 'n' then some '\n'
  else if e = 't' then some '\t'
  else if e = 'r' then some '\r'
  else if e = 'b' then some (Char.ofNat 8)
  else if e = 'f' then some (Char.ofNat 12)
  else none

mutual

/-- Parse the body of a JSON string (after the opening quote): returns the
decoded characters and the input after the closing quote.  Unescaped
control characters are rejected, as by `json.loads` in strict mode. -/
def parseJString : List Char → Option (List Char × List Char)
  | [] => none
  | c :: rest =>
    if c = '"' then some ([], rest)
    else if c = '\\' then parseEsc rest
    else if c.toNat < 32 then none
    else (parseJString rest).map (fun p => (c :: p.1, p.2))

/-- Parse a string escape after the backslash: the single-character escapes
and `\uXXXX`. -/
def parseEsc : List Char → Option (List Char × List Char)
  | [] => none
  | e :: rest =>
    if e = 'u' then
      match rest with
      | a :: b :: c :: d :: rest2 =>
        match hexVal a, hexVal b, hexVal c, hexVal d with
        | some va, some vb, some vc, some vd =>
          (parseJString rest2).map
            (fun p => (Char.ofNat (((va * 16 + vb) * 16 + vc) * 16 + vd) :: p.1, p.2))
        | _, _, _, _ => none
      | _ => none
    else
      match escMap e with
      | some d => (parseJString rest).map (fun p => (d :: p.1, p.2))
      | none => none

end

def isDigit (c : Char) : Bool :=
  '0' ≤ c ∧ c ≤ '9'

def digitsToNat (ds : List Char) : Nat :=
  ds.foldl (fun acc c => acc * 10 + (c.toNat - 48)) 0

/-- Assemble a JSON number from sign, integer digits, fraction digits and
a decimal exponent. -/
def ratOfParts (neg : Bool) (intDs fracDs : List Char) (e : ℤ) : ℚ :=
  (if neg then -1 else 1) * (digitsToNat (intDs ++ fracDs) : ℚ) *
    (10 : ℚ) ^ (e - (fracDs.length : ℤ))

/-- Parse a JSON number (the grammar of RFC 8259 as accepted by
`json.loads`: no leading zeros, at least one digit in every digit run). -/
def parseNumber (l : List Char) : Option (ℚ × List Char) :=
  let p := match l with
    | '-' :: r => (true, r)
    | _ => (false, l)
  let neg := p.1
  let l1 := p.2
  let intDs := l1.takeWhile isDigit
  let l2 := l1.dropWhile isDigit
  if intDs = [] then none
  else if 1 < intDs.length ∧ intDs.head? = some '0' then none
  else
    let fp : List Char × List Char := match l2 with
      | '.' :: r => (r.takeWhile isDigit, r.dropWhile isDigit)
      | _ => ([], l2)
    let fracDs := fp.1
    let l3 := fp.2
    if l2.head? = some '.' ∧ fracDs = [] then none
    else
      match l3 with
      | 'e' :: r | 'E' :: r =>
        let sp : ℤ × List Char := match r with
          | '+' :: r2 => (1, r2)
          | '-' :: r2 => (-1, r2)
          | _ => (1, r)
        let expDs := sp.2.takeWhile isDigit
        let r2 := sp.2.dropWhile isDigit
        if expDs = [] then none
        else some (ratOfParts neg intDs fracDs (sp.1 * (digitsToNat expDs : ℤ)), r2)
      | _ => some (ratOfParts neg intDs fracDs 0, l3)

mutual

/-- Parse one JSON value, leading whitespace allowed. -/
def parseVal : Nat → List Char → Option (Json × List Char)
  | 0, _ => none
  | fuel + 1, l =>
    match skipWs l with
    | [] => none
    | c :: rest =>
      if c = '\x7b' then parseObjStart fuel rest
      else if c = '[' then parseArrStart fuel rest
      else if c = '"' then (parseJString rest).map (fun p => (.str p.1, p.2))
      else if c = 't' ∧ rest.take 3 = ('r' :: 'u' :: 'e' :: []) then
        some (.bool true, rest.drop 3)
      else if c = 'f' ∧ rest.take 4 = ('a' :: 'l' :: 's' :: 'e' :: []) then
        some (.bool false, rest.drop 4)
      else if c = 'n' ∧ rest.take 3 = ('u' :: 'l' :: 'l' :: []) then
        some (.null, rest.drop 3)
      else (parseNumber (c :: rest)).map (fun p => (.num p.1, p.2))

/-- Parse the inside of an object, after the opening brace. -/
def parseObjStart : Nat → List Char → Option (Json × List Char)
  | 0, _ => none
  | fuel + 1, l =>
    match skipWs l with
    | [] => none
    | c :: rest =>
      if c = '\x7d' then some (.obj [], rest)
      else (parseMembers fuel (c :: rest)).map (fun p => (.obj p.1, p.2))

/-- Parse one-or-more comma-separated `"key": value` members, consuming the
closing brace. -/
def parseMembers : Nat → List Char → Option (List (List Char × Json) × List Char)
  | 0, _ => none
  | fuel + 1, l =>
    match skipWs l with
    | [] => none
    | c :: rest =>
      if c = '"' then
        match parseJString rest with
        | none => none
        | some (key, rest2) =>
          match skipWs rest2 with
          | [] => none
          | c2 :: rest3 =>
            if c2 = ':' then
              match parseVal fuel rest3 with
              | none => none
              | some (v, rest4) =>
                match skipWs rest4 with
                | [] => none
                | c3 :: rest5 =>
                  if c3 = ',' then
                    (parseMembers fuel rest5).map (fun p => ((key, v) :: p.1, p.2))
                  else if c3 = '\x7d' then some ([(key, v)], rest5)
                  else none
            else none
      else none

/-- Parse the inside of an array, after the opening bracket. -/
def parseArrStart : Nat → List Char → Option (Json × List Char)
  | 0, _ => none
  | fuel + 1, l =>
    match skipWs l with
    | [] => none
    | c :: rest =>
      if c = ']' then some (.arr [], rest)
      else (parseArrElems fuel (c :: rest)).map (fun p => (.arr p.1, p.2))

/-- Parse one-or-more comma-separated array elements, consuming the closing
bracket. -/
def parseArrElems : Nat → List Char → Option (List Json × List Char)
  | 0, _ => none
  | fuel + 1, l =>
    match parseVal fuel l with
    | none => none
    | some (v, rest) =>
      match skipWs rest with
      | [] => none
      | c :: rest2 =>
        if c = ',' then (parseArrElems fuel rest2).map (fun p => (v :: p.1, p.2))
        else if c = ']' then some ([v], rest2)
        else none

end

/-- `json.loads`: parse one complete JSON document, rejecting trailing
non-whitespace. -/
def jsonParse (l : List Char) : Option Json :=
  match parseVal (l.length + 1) l with
  | some (v, rest) => if skipWs rest = [] then some v else none
  | none => none

/-! ### The cleanup steps of `_extract_json`

`_extract_json` strips whitespace, removes markdown code fences, deletes
`//` line comments and `/* ... */` block comments, deletes trailing commas
before a closing brace or bracket, slices from the first `{` to the last
`}` when such a span exists, and finally calls `json.loads`. -/

mutual

/-- Python `str.splitlines()` restricted to the line breaks `\n`, `\r\n`
and `\r` (no terminal empty line for a trailing break). -/
def splitLinesPy : List Char → List Char → List (List Char)
  | [], acc => if acc = [] then [] else [acc.reverse]
  | c :: rest, acc =>
    if c = '\n' then acc.reverse :: splitLinesPy rest []
    else if c = '\r' then acc.reverse :: splitCR rest
    else splitLinesPy rest (c :: acc)

/-- Continuation after a `\r`: a following `\n` belongs to the same break. -/
def splitCR : List Char → List (List Char)
  | [] => []
  | c :: rest =>
    if c = '\n' then splitLinesPy rest []
    else if c = '\r' then [] :: splitCR rest
    else splitLinesPy rest [c]

end

/-- Join lines with `\n`, as `"\n".join(lines)` does. -/
def joinNL : List (List Char) → List Char
  | [] => []
  | [l] => l
  | l :: rest => l ++ '\n' :: joinNL rest

/-- The fence-removal branch of `_extract_json`: drop the first line, drop
the last line when its stripped form starts with a triple backtick, re-join
and strip. -/
def stripFences (t : List Char) : List Char :=
  let lines := (splitLinesPy t []).drop 1
  let lines2 := match lines.getLast? with
    | some last =>
      if ("```").data.isPrefixOf (stripList last) then lines.dropLast else lines
    | none => lines
  stripList (joinNL lines2)

mutual

/-- Scanner for `re.sub(r'//[^\n]*', '', text)`: outside a comment. -/
def rlc : List Char → List Char
  | [] => []
  | c :: rest => if c = '/' then rlcSlash rest else c :: rlc rest

/-- Scanner state after a single `/`. -/
def rlcSlash : List Char → List Char
  | [] => ['/']
  | c :: rest => if c = '/' then rlcLine rest else '/' :: c :: rlc rest

/-- Scanner state inside a `//` comment: drop up to (not including) the
next newline. -/
def rlcLine : List Char → List Char
  | [] => []
  | c :: rest => if c = '\n' then '\n' :: rlc rest else rlcLine rest

end

/-- Does the list contain the two-character sequence `*/`? -/
def containsStarSlash : List Char → Bool
  | [] => false
  | c :: rest =>
    if c = '*' ∧ rest.head? = some '/' then true else containsStarSlash rest

mutual

/-- Scanner for `re.sub(r'/\*.*?\*/', '', text, flags=re.DOTALL)`: outside
a comment. -/
def rbc : List Char → List Char
  | [] => []
  | c :: rest => if c = '/' then rbcSlash rest else c :: rbc rest

/-- Scanner state after a single `/`.  A `/*` opener only matches when a
closing `*/` exists further on (the regex match needs both delimiters). -/
def rbcSlash : List Char → List Char
  | [] => ['/']
  | c :: rest =>
    if c = '*' then
      if containsStarSlash rest then rbcIn rest else '/' :: '*' :: rbc rest
    else if c = '/' then '/' :: rbcSlash rest
    else '/' :: c :: rbc rest

/-- Scanner state inside `/* ... */`. -/
def rbcIn : List Char → List Char
  | [] => []
  | c :: rest => if c = '*' then rbcInStar rest else rbcIn rest

/-- Scanner state inside `/* ... */` having just seen a `*`: a `/` closes
the first `*/` and normal scanning resumes. -/
def rbcInStar : List Char → List Char
  | [] => []
  | c :: rest =>
    if c = '/' then rbc rest
    else if c = '*' then rbcInStar rest
    else rbcIn rest

end

mutual

/-- Scanner for `re.sub(r',(\s*[}\]])', r'\1', text)`: outside a match
attempt. -/
def rtc : List Char → List Char
  | [] => []
  | c :: rest => if c = ',' then rtcWs rest [] else c :: rtc rest

/-- Scanner state after a comma: `acc` holds the whitespace scanned so far
(reversed).  A closing brace or bracket as the first non-whitespace
character completes the match and the comma is dropped; anything else emits
the comma and the whitespace unchanged and the scan resumes. -/
def rtcWs : List Char → List Char → List Char
  | [], acc => ',' :: acc.reverse
  | c :: rest, acc =>
    if isPyWs c then rtcWs rest (c :: acc)
    else if c = '\x7d' ∨ c = ']' then acc.reverse ++ c :: rtc rest
    else if c = ',' then (',' :: acc.reverse) ++ rtcWs rest []
    else (',' :: acc.reverse) ++ c :: rtc rest

end

/-- The `re.search(r'\{.*\}', text, re.DOTALL)` slice: from the first `{`
to the last `}`, when the last `}` comes after the first `{`. -/
def braceSlice (l : List Char) : Option (List Char) :=
  let pre := l.dropWhile (fun c => ¬ c = '\x7b')
  let s := (pre.reverse.dropWhile (fun c => ¬ c = '\x7d')).reverse
  if 2 ≤ s.length then some s else none

/-- The fence step of `_extract_json`: strip fences only when the text
starts with a triple backtick. -/
def defenceStep (t : List Char) : List Char :=
  if ("```").data.isPrefixOf t then stripFences t else t

/-- The brace-slice step of `_extract_json`: keep the text unchanged when
the regex finds no span. -/
def sliceStep (t : List Char) : List Char :=
  match braceSlice t with
  | some s => s
  | none => t

/-- `_extract_json`: the full cleanup pipeline followed by `json.loads`;
`none` models the re-raised `json.JSONDecodeError`. -/
def extract_json (text : List Char) : Option Json :=
  jsonParse (sliceStep (rtc (rbc (rlc (defenceStep (stripList text))))))

/-! ### The `ParsedNews` pydantic model and `parse_with_gemini`

`ParsedNews` requires `location`, `event_type` and `duration` as plain
strings (no enumeration check and no defaults), `severity` as a
`Literal["low", "medium", "high", "critical"]`, and nested `coordinates`.
`parse_with_gemini(**data, raw_model_response=...)` raises `TypeError`
when `data` itself carries a `raw_model_response` key, and pydantic raises
`ValidationError` when a required field is missing, not a string, or (for
`severity`) outside the literal set. -/

def locKey : List Char := ("location").data

def etKey : List Char := ("event_type").data

def sevKey : List Char := ("severity").data

def durKey : List Char := ("duration").data

def rmrKey : List Char := ("raw_model_response").data

/-- The `Severity` literal set. -/
def severitySet : List (List Char) :=
  [("low").data, ("medium").data, ("high").data, ("critical").data]

/-- The canonical event types enumerated by the spec (the code nowhere
validates against this set; it exists for stating the claims). -/
def eventTypeSet : List (List Char) :=
  [("road_work").data, ("accident").data, ("emergency").data,
   ("repair").data, ("road_closure").data, ("other").data]

/-- The `ParsedNews` record as produced by a successful validation. -/
structure ParsedNews where
  location : List Char
  event_type : List Char
  severity : List Char
  duration : List Char
  coordinates : Coordinates
  raw_model_response : Option (List (List Char × List Char))
deriving DecidableEq

/-- The distinct exceptions that `parse_with_gemini` can raise (all of
them surface as HTTP 500 in `parse_news`). -/
inductive ParseErr where
  | missingKey
  | upstream
  | jsonDecode
  | notAnObject
  | duplicateKw
  | validation
deriving DecidableEq

/-- Read a field that pydantic types as `str`: present and a JSON string. -/
def getStr (fields : List (List Char × Json)) (key : List Char) : Option (List Char) :=
  match jlookup fields key with
  | some (.str s) => some s
  | _ => none

/-- `ParsedNews(**data, raw_model_response=...)`: the `TypeError` for a
duplicated keyword, then pydantic validation of the four string fields and
the `severity` literal;`coords` is the coordinates dict assigned into
`data` beforehand. -/
def validateParsedNews (model : List Char) (fields : List (List Char × Json))
    (coords : Coordinates) : Except ParseErr ParsedNews :=
  if (jlookup fields rmrKey).isSome then .error .duplicateKw
  else
    match getStr fields locKey, getStr fields etKey,
          getStr fields sevKey, getStr fields durKey with
    | some loc, some et, some sev, some dur =>
      if sev ∈ severitySet then
        .ok { location := loc, event_type := et, severity := sev, duration := dur,
              coordinates := coords,
              raw_model_response :=
                some [(("provider").data, ("gemini").data), (("model").data, model)] }
      else .error .validation
    | _, _, _, _ => .error .validation

/-- The prompt template of `build_prompt` (an f-string; `{{`/`}}` render as
literal braces). -/
def build_prompt (text : List Char) : List Char :=
  ("\nYou are an assistant for Kyzylorda city, Kazakhstan. Extract incident information from news text.\n\nEXAMPLE OUTPUT (copy this format exactly):\n\x7b\"location\": \"улица Абая\", \"event_type\": \"road_work\", \"severity\": \"medium\", \"duration\": \"2 hours\"\x7d\n\nRULES:\n1. Extract the EXACT street/location name from the text (keep it in original language - Russian or Kazakh)\n2. event_type options: \"road_work\", \"accident\", \"emergency\", \"repair\", \"road_closure\"\n3. severity options: \"low\", \"medium\", \"high\", \"critical\"\n4. duration: extract from text or \"unknown\"\n5. Return ONLY valid JSON - no comments, no markdown, no extra text\n\nNEWS TEXT:\n\"\"\"").data
    ++ text ++ ("\"\"\"").data

/-- One call to an external collaborator, for stating "no external call is
made". -/
inductive ExtCall where
  | genCall (prompt : List Char)
  | geoCall (query : List Char)
deriving DecidableEq

/-- `parse_with_gemini` under generation behaviour `gen` and geocoder
behaviour `geo`: checks the configured key, performs the generation call,
extracts the JSON payload, geocodes `data.get("location", "")` (a non-str
location raises `AttributeError` inside `geocode_street`'s `try`, giving
the city center without any geocoder query), and validates.  The second
component is the list of external calls performed, in order. -/
def parse_with_gemini (apiKey : Option (List Char)) (model : List Char)
    (gen : List Char → Except Unit (List Char))
    (geo : List Char → GeoResponse)
    (text : List Char) : Except ParseErr ParsedNews × List ExtCall :=
  if apiKey = none then (.error .missingKey, [])
  else
    match gen (build_prompt text) with
    | .error _ => (.error .upstream, [.genCall (build_prompt text)])
    | .ok modelText =>
      match extract_json modelText with
      | none => (.error .jsonDecode, [.genCall (build_prompt text)])
      | some (.obj fields) =>
        match jlookup fields locKey with
        | some (.str s) =>
          (validateParsedNews model fields (geocode_street geo s),
            .genCall (build_prompt text) ::
              (geoTrace geo (searchQueries s)).map .geoCall)
        | none =>
          (validateParsedNews model fields (geocode_street geo []),
            .genCall (build_prompt text) ::
              (geoTrace geo (searchQueries [])).map .geoCall)
        | some _ =>
          (validateParsedNews model fields cityCenter,
            [.genCall (build_prompt text)])
      | some _ => (.error .notAnObject, [.genCall (build_prompt text)])

/-- The HTTP-level outcome of the `/parse-news` handler. -/
inductive ApiResult where
  | ok (p : ParsedNews)
  | clientError (code : Nat)
  | serverError (code : Nat)
deriving DecidableEq

/-- The `/parse-news` handler: the empty-text guard runs before the `try`
block (HTTP 400, no external call); every exception from
`parse_with_gemini` becomes HTTP 500. -/
def parse_news (apiKey : Option (List Char)) (model : List Char)
    (gen : List Char → Except Unit (List Char))
    (geo : List Char → GeoResponse)
    (text : List Char) : ApiResult × List ExtCall :=
  if stripList text = [] then (.clientError 400, [])
  else
    match parse_with_gemini apiKey model gen geo text with
    | (.ok p, calls) => (.ok p, calls)
    | (.error _, calls) => (.serverError 500, calls)

/-! ### Well-formed structured replies

For the universally quantified claims about well-formed replies we fix the
canonical reply shape — exactly the format the prompt instructs the model
to copy — with the four field values abstract. -/

/-- The canonical well-formed structured reply
`{"location": L, "event_type": E, "severity": S, "duration": D}`, written
so that every structural character is explicit. -/
def renderReply (loc et sev dur : List Char) : List Char :=
  '\x7b' :: '"' :: (locKey ++ '"' :: ':' :: ' ' :: '"' :: (loc ++
    '"' :: ',' :: ' ' :: '"' :: (etKey ++ '"' :: ':' :: ' ' :: '"' :: (et ++
      '"' :: ',' :: ' ' :: '"' :: (sevKey ++ '"' :: ':' :: ' ' :: '"' :: (sev ++
        '"' :: ',' :: ' ' :: '"' :: (durKey ++ '"' :: ':' :: ' ' :: '"' :: (dur ++
          '"' :: '\x7d' :: []))))))))

/-- Field values that survive the cleanup untouched and parse as JSON
string bodies: no quote, backslash, brace, bracket or slash, and no
control characters. -/
def safeChunk (s : List Char) : Prop :=
  ∀ c ∈ s, c ≠ '"' ∧ c ≠ '\\' ∧ c ≠ '\x7b' ∧ c ≠ '\x7d' ∧ c ≠ '[' ∧
    c ≠ ']' ∧ c ≠ '/' ∧ 32 ≤ c.toNat

/-- What `parseJString` needs of a string body to read it verbatim. -/
def jsonSafe (s : List Char) : Prop :=
  ∀ c ∈ s, c ≠ '"' ∧ c ≠ '\\' ∧ 32 ≤ c.toNat

/-- The first non-whitespace character, if any, is not a closing brace or
bracket (so no trailing-comma match can fire into this suffix). -/
def noCloserAhead (l : List Char) : Prop :=
  ∀ c, (l.dropWhile isPyWs).head? = some c → c ≠ '\x7d' ∧ c ≠ ']'

/-- Does an `Except` hold a value? -/
def exceptOk {ε α : Type} : Except ε α → Bool
  | .ok _ => true
  | .error _ => false

/-- The reply without its final quote-and-brace, for splitting lemmas. -/
def renderPre (loc et sev dur : List Char) : List Char :=
  '\x7b' :: '"' :: (locKey ++ '"' :: ':' :: ' ' :: '"' :: (loc ++
    '"' :: ',' :: ' ' :: '"' :: (etKey ++ '"' :: ':' :: ' ' :: '"' :: (et ++
      '"' :: ',' :: ' ' :: '"' :: (sevKey ++ '"' :: ':' :: ' ' :: '"' :: (sev ++
        '"' :: ',' :: ' ' :: '"' :: (durKey ++ '"' :: ':' :: ' ' :: '"' :: dur)))))))

instance (s : List Char) : Decidable (safeChunk s) := by
  unfold safeChunk
  infer_instance

instance (s : List Char) : Decidable (jsonSafe s) := by
  unfold jsonSafe
  infer_instance


/-! ### Concrete model replies used by counterexamples -/

/-- A reply whose severity value is outside the enumerated set. -/
def replyBadSeverity : List Char :=
  renderReply (("улица Абая").data) (("accident").data) (("extreme").data)
    (("1 час").data)

/-- A reply whose event type is outside the enumerated set. -/
def replyBadEventType : List Char :=
  renderReply (("улица Абая").data) (("наводнение").data) (("low").data)
    (("3 часа").data)

/-- A reply with no duration field at all. -/
def replyNoDuration : List Char :=
  ("\x7b\"location\": \"улица Абая\", \"event_type\": \"accident\", \"severity\": \"low\"\x7d").data

/-- A reply whose duration field is an explicit `null`. -/
def replyNullDuration : List Char :=
  ("\x7b\"location\": \"улица Абая\", \"event_type\": \"accident\", \"severity\": \"low\", \"duration\": null\x7d").data

/-- A well-formed reply, fields in range, whose location value contains a
double slash (`улица Абая//Гоголя`, an intersection written with `//`). -/
def replySlashLocation : List Char :=
  renderReply (("улица Абая//Гоголя").data) (("accident").data) (("low").data)
    (("1 час").data)

/-! ### Helper lemmas about the candidate loop -/

theorem candidateMisses_noValidHit (beh : List Char → GeoResponse) (q : List Char)
    (h : candidateMisses beh q) : noValidHit beh q := by
  rintro ⟨la, ln, hh, hb⟩
  rcases h with h | h | ⟨la2, ln2, hh2, hb2⟩
  · rw [h] at hh; exact GeoResponse.noConfusion hh
  · rw [h] at hh; exact GeoResponse.noConfusion hh
  · rw [hh2] at hh
    injection hh with h1 h2
    subst h1; subst h2
    rw [hb] at hb2
    exact Bool.noConfusion hb2

theorem geoTryQueries_raised (beh : List Char → GeoResponse) :
    ∀ (pre : List (List Char)) (q : List Char) (rest : List (List Char)),
      (∀ p ∈ pre, noValidHit beh p) → beh q = .raised →
      geoTryQueries beh (pre ++ q :: rest) = cityCenter := by
  intro pre
  induction pre with
  | nil =>
    intro q rest _ hq
    simp only [List.nil_append, geoTryQueries, hq]
  | cons p pre ih =>
    intro q rest hmiss hq
    have hp := hmiss p (List.mem_cons_self p pre)
    have hrest : ∀ r ∈ pre, noValidHit beh r :=
      fun r hr => hmiss r (List.mem_cons_of_mem p hr)
    simp only [List.cons_append, geoTryQueries]
    cases hbeh : beh p with
    | raised => rfl
    | httpError => exact ih q rest hrest hq
    | empty => exact ih q rest hrest hq
    | hit la ln =>
      have hb : inBounds la ln = false := by
        by_contra hb
        exact hp ⟨la, ln, hbeh, by simpa using hb⟩
      simp only [hb, if_false]
      exact ih q rest hrest hq

theorem geoTryQueries_first_hit (beh : List Char → GeoResponse) :
    ∀ (pre : List (List Char)) (q : List Char) (rest : List (List Char)) (lat lng : ℚ),
      (∀ p ∈ pre, candidateMisses beh p) →
      beh q = .hit lat lng → inBounds lat lng = true →
      geoTryQueries beh (pre ++ q :: rest) = ⟨lat, lng⟩ := by
  intro pre
  induction pre with
  | nil =>
    intro q rest lat lng _ hq hb
    simp only [List.nil_append, geoTryQueries, hq, hb, if_true]
  | cons p pre ih =>
    intro q rest lat lng hmiss hq hb
    have hp := hmiss p (List.mem_cons_self p pre)
    have hrest : ∀ r ∈ pre, candidateMisses beh r :=
      fun r hr => hmiss r (List.mem_cons_of_mem p hr)
    rcases hp with h | h | ⟨la, ln, hh, hbo⟩
    · simp only [List.cons_append, geoTryQueries, h]
      exact ih q rest lat lng hrest hq hb
    · simp only [List.cons_append, geoTryQueries, h]
      exact ih q rest lat lng hrest hq hb
    · simp only [List.cons_append, geoTryQueries, hh, hbo]
      simpa using ih q rest lat lng hrest hq hb

theorem geoTryQueries_no_valid (beh : List Char → GeoResponse) :
    ∀ (qs : List (List Char)), (∀ q ∈ qs, noValidHit beh q) →
      geoTryQueries beh qs = cityCenter := by
  intro qs
  induction qs with
  | nil => intro _; rfl
  | cons q rest ih =>
    intro h
    have hq := h q (List.mem_cons_self q rest)
    have hrest : ∀ r ∈ rest, noValidHit beh r :=
      fun r hr => h r (List.mem_cons_of_mem q hr)
    simp only [geoTryQueries]
    cases hbeh : beh q with
    | raised => rfl
    | httpError => exact ih hrest
    | empty => exact ih hrest
    | hit la ln =>
      have hb : inBounds la ln = false := by
        by_contra hb
        exact hq ⟨la, ln, hbeh, by simpa using hb⟩
      simp only [hb, if_false]
      exact ih hrest

/-! ### Claim theorems for the location resolver -/

/-- Claim C1, counterexample: under a behaviour where the first candidate
query raises and the second candidate query returns an in-bounds hit,
`geocode_street` returns the city-center fallback instead of continuing to
the next candidate and returning that hit. -/
theorem geocode_error_continue_cex :
    behRaiseFirst (("улица Абая").data ++ (", Кызылорда, Казахстан").data) = .raised ∧
    behRaiseFirst (("улица Абая").data ++ (", Kyzylorda, Kazakhstan").data) =
      .hit (449/10) (131/2) ∧
    inBounds (449/10) (131/2) = true ∧
    geocode_street behRaiseFirst (("улица Абая").data) = cityCenter ∧
    cityCenter ≠ ⟨449/10, 131/2⟩ := by
  refine ⟨rfl, rfl, ?_, rfl, ?_⟩
  · simp only [inBounds, decide_eq_true_eq]
    norm_num
  · intro h
    have hlat := congrArg Coordinates.lat h
    simp only [cityCenter] at hlat
    norm_num at hlat

/-- Claim C1, amended: a transport error, timeout, or malformed provider
response while processing a candidate aborts the remaining candidates —
`geocode_street` returns the city-center fallback immediately rather than
continuing with the next candidate in order (it still never raises: the
embedding is a total function). -/
theorem geocode_error_aborts_to_fallback
    (beh : List Char → GeoResponse) (loc : List Char)
    (pre : List (List Char)) (q : List Char) (rest : List (List Char))
    (hsplit : searchQueries loc = pre ++ q :: rest)
    (hpre : ∀ p ∈ pre, noValidHit beh p)
    (hq : beh q = .raised) :
    geocode_street beh loc = cityCenter := by
  rw [geocode_street, hsplit]
  exact geoTryQueries_raised beh pre q rest hpre hq

/-- Witness for the amended C1 theorem at a concrete behaviour. -/
theorem geocode_error_aborts_to_fallback_witness :
    geocode_street (fun _ => .raised) (("x").data) = cityCenter :=
  geocode_error_aborts_to_fallback (fun _ => .raised) (("x").data)
    [] (("x").data ++ (", Кызылорда, Казахстан").data)
    [ ("x").data ++ (", Kyzylorda, Kazakhstan").data
    , stripList (replaceList ("улица").data [] (("x").data)) ++ (", Кызылорда").data
    , stripList (replaceList ("street").data [] (("x").data)) ++ (", Kyzylorda").data ]
    rfl (by intro p hp; exact absurd hp (List.not_mem_nil p)) rfl

/-- Claim C5, counterexample: the second candidate query yields a
bounds-valid hit, yet `geocode_street` returns the city-center fallback
(because the first candidate raised), so the hit is not returned exactly. -/
theorem geocode_valid_hit_returned_cex :
    behRaiseThenHit (("улица Желтоксан").data ++ (", Kyzylorda, Kazakhstan").data) =
      .hit (4486/100) (6548/100) ∧
    inBounds (4486/100) (6548/100) = true ∧
    geocode_street behRaiseThenHit (("улица Желтоксан").data) = cityCenter ∧
    cityCenter ≠ ⟨4486/100, 6548/100⟩ := by
  refine ⟨rfl, ?_, rfl, ?_⟩
  · simp only [inBounds, decide_eq_true_eq]
    norm_num
  · intro h
    have hlat := congrArg Coordinates.lat h
    simp only [cityCenter] at hlat
    norm_num at hlat

/-- Claim C5, amended: `geocode_street` always returns a coordinate pair
(the embedding is total over ℚ, so both components are finite); and
whenever a candidate query, taken in order, yields a hit whose parsed
latitude/longitude lie inside the city bounding box and every earlier
candidate misses without raising (non-200 status, empty result, or an
out-of-bounds hit), that first bounds-valid hit is returned exactly. -/
theorem geocode_first_valid_hit_returned
    (beh : List Char → GeoResponse) (loc : List Char)
    (pre : List (List Char)) (q : List Char) (rest : List (List Char))
    (lat lng : ℚ)
    (hsplit : searchQueries loc = pre ++ q :: rest)
    (hpre : ∀ p ∈ pre, candidateMisses beh p)
    (hq : beh q = .hit lat lng) (hb : inBounds lat lng = true) :
    geocode_street beh loc = ⟨lat, lng⟩ := by
  rw [geocode_street, hsplit]
  exact geoTryQueries_first_hit beh pre q rest lat lng hpre hq hb

/-- Witness for the amended C5 theorem at a concrete behaviour. -/
theorem geocode_first_valid_hit_returned_witness :
    geocode_street (fun _ => .hit (4485/100) (655/10)) (("y").data) =
      ⟨4485/100, 655/10⟩ :=
  geocode_first_valid_hit_returned (fun _ => .hit (4485/100) (655/10)) (("y").data)
    [] (("y").data ++ (", Кызылорда, Казахстан").data)
    [ ("y").data ++ (", Kyzylorda, Kazakhstan").data
    , stripList (replaceList ("улица").data [] (("y").data)) ++ (", Кызылорда").data
    , stripList (replaceList ("street").data [] (("y").data)) ++ (", Kyzylorda").data ]
    (4485/100) (655/10)
    rfl (by intro p hp; exact absurd hp (List.not_mem_nil p)) rfl
    (by simp only [inBounds, decide_eq_true_eq]; norm_num)

/-- Claim C6: when every candidate query returns an empty result or only an
out-of-bounds hit, `geocode_street` returns a point inside the configured
city bounding box (namely the city-center fallback; the code applies no
jitter). -/
theorem geocode_fallback_in_bounds
    (beh : List Char → GeoResponse) (loc : List Char)
    (h : ∀ q ∈ searchQueries loc,
        beh q = .empty ∨ ∃ la ln, beh q = .hit la ln ∧ inBounds la ln = false) :
    geocode_street beh loc = cityCenter ∧
    inBounds (geocode_street beh loc).lat (geocode_street beh loc).lng = true := by
  have hnv : ∀ q ∈ searchQueries loc, noValidHit beh q := by
    intro q hq
    exact candidateMisses_noValidHit beh q
      ((h q hq).elim (fun he => Or.inr (Or.inl he)) (fun hh => Or.inr (Or.inr hh)))
  have heq : geocode_street beh loc = cityCenter :=
    geoTryQueries_no_valid beh (searchQueries loc) hnv
  refine ⟨heq, ?_⟩
  rw [heq]
  simp only [cityCenter, inBounds, decide_eq_true_eq]
  norm_num

/-- Witness for the C6 theorem at a concrete behaviour. -/
theorem geocode_fallback_in_bounds_witness :
    geocode_street (fun _ => .empty) (("z").data) = cityCenter ∧
    inBounds (geocode_street (fun _ => .empty) (("z").data)).lat
      (geocode_street (fun _ => .empty) (("z").data)).lng = true :=
  geocode_fallback_in_bounds (fun _ => .empty) (("z").data)
    (by intro q _; exact Or.inl rfl)

/-- Claim C10: the fallback path of `geocode_street` is deterministic —
whenever no candidate yields a bounds-valid hit, or a candidate raises
before any bounds-valid hit is reached, the result is exactly the constant
point `(44.8488, 65.4823)`, with no jitter. -/
theorem geocode_fallback_deterministic
    (beh : List Char → GeoResponse) (loc : List Char)
    (h : (∀ q ∈ searchQueries loc, noValidHit beh q) ∨
        ∃ pre q rest, searchQueries loc = pre ++ q :: rest ∧
          (∀ p ∈ pre, noValidHit beh p) ∧ beh q = .raised) :
    geocode_street beh loc = ⟨448488/10000, 654823/10000⟩ := by
  rcases h with h | ⟨pre, q, rest, hsplit, hpre, hq⟩
  · exact geoTryQueries_no_valid beh (searchQueries loc) h
  · rw [geocode_street, hsplit]
    exact geoTryQueries_raised beh pre q rest hpre hq

/-- Witness for the C10 theorem at a concrete behaviour. -/
theorem geocode_fallback_deterministic_witness :
    geocode_street (fun _ => .httpError) (("w").data) = ⟨448488/10000, 654823/10000⟩ :=
  geocode_fallback_deterministic (fun _ => .httpError) (("w").data)
    (Or.inl (by intro q _; rintro ⟨la, ln, hh, _⟩; exact GeoResponse.noConfusion hh))

/-! ### Claim theorems for the connection manager -/

/-- Claim C3, counterexample: disconnecting a connection that is not in the
set is not a no-op — it raises `ValueError` instead of leaving the (empty)
set unchanged. -/
theorem disconnect_idempotent_cex :
    ConnectionManager.disconnect (⟨[]⟩ : ConnectionManager ℕ) 0 = .error .valueError ∧
    ConnectionManager.disconnect (⟨[]⟩ : ConnectionManager ℕ) 0 ≠ .ok ⟨[]⟩ := by
  exact ⟨rfl, fun h => Except.noConfusion h⟩

/-- Claim C3, amended: `disconnect` removes the first occurrence of a
present connection; disconnecting an absent connection raises `ValueError`
(`list.remove` semantics) rather than being a no-op. -/
theorem disconnect_not_idempotent {α : Type} [DecidableEq α]
    (m : ConnectionManager α) (ws : α) :
    (ws ∈ m.active_connections →
      m.disconnect ws = .ok ⟨m.active_connections.erase ws⟩) ∧
    (ws ∉ m.active_connections → m.disconnect ws = .error .valueError) := by
  constructor
  · intro hmem
    simp only [ConnectionManager.disconnect, if_pos hmem]
  · intro habs
    simp only [ConnectionManager.disconnect, if_neg habs]

/-- Witness for the amended C3 theorem at concrete states. -/
theorem disconnect_not_idempotent_witness :
    ConnectionManager.disconnect (⟨[5]⟩ : ConnectionManager ℕ) 5 = .ok ⟨[]⟩ ∧
    ConnectionManager.disconnect (⟨[5]⟩ : ConnectionManager ℕ) 7 = .error .valueError := by
  constructor
  · exact (disconnect_not_idempotent (⟨[5]⟩ : ConnectionManager ℕ) 5).1 (by decide)
  · exact (disconnect_not_idempotent (⟨[5]⟩ : ConnectionManager ℕ) 7).2 (by decide)

/-- Claim C4: when delivery to one registered observer fails, `broadcast`
still attempts delivery to every registered observer (the failing one
included), and the observer set afterwards is unchanged — the failing
observer is not removed. -/
theorem broadcast_isolates_failures {α ε : Type}
    (m : ConnectionManager α) (send : α → Except ε Unit) (a : α) (e : ε)
    (hmem : a ∈ m.active_connections) (hfail : send a = .error e) :
    (a, Except.error e) ∈ (m.broadcast send).1 ∧
    (∀ b ∈ m.active_connections, (b, send b) ∈ (m.broadcast send).1) ∧
    (m.broadcast send).2 = m := by
  refine ⟨?_, ?_, rfl⟩
  · rw [← hfail]
    exact List.mem_map_of_mem (fun c => (c, send c)) hmem
  · intro b hb
    exact List.mem_map_of_mem (fun c => (c, send c)) hb

/-- Witness for the C4 theorem at a concrete manager and send behaviour. -/
theorem broadcast_isolates_failures_witness :
    ((1 : ℕ), Except.error (0 : ℕ)) ∈
      ((⟨[1, 2, 3]⟩ : ConnectionManager ℕ).broadcast
        (fun c => if c = 1 then .error 0 else .ok ())).1 ∧
    (∀ b ∈ ([1, 2, 3] : List ℕ),
      (b, if b = 1 then Except.error (0 : ℕ) else Except.ok ()) ∈
        ((⟨[1, 2, 3]⟩ : ConnectionManager ℕ).broadcast
          (fun c => if c = 1 then .error 0 else .ok ())).1) ∧
    ((⟨[1, 2, 3]⟩ : ConnectionManager ℕ).broadcast
        (fun c => if c = 1 then .error 0 else .ok ())).2 = ⟨[1, 2, 3]⟩ :=
  broadcast_isolates_failures (⟨[1, 2, 3]⟩ : ConnectionManager ℕ)
    (fun c => if c = 1 then .error 0 else .ok ()) 1 0 (by decide) rfl

/-! ### Helper lemmas about the cleanup scanners -/

theorem stripList_of_all_ws {l : List Char} (h : ∀ c ∈ l, isPyWs c = true) :
    stripList l = [] := by
  have h1 : l.dropWhile isPyWs = [] := by
    rw [List.dropWhile_eq_nil_iff]
    exact fun x hx => h x hx
  rw [stripList, h1]
  rfl

theorem rlc_id {l : List Char} (h : ∀ c ∈ l, c ≠ '/') : rlc l = l := by
  induction l with
  | nil => rfl
  | cons c rest ih =>
    have hc : c ≠ '/' := h c (List.mem_cons_self c rest)
    have ih2 := ih (fun d hd => h d (List.mem_cons_of_mem c hd))
    simp only [rlc, if_neg hc, ih2]

theorem rbc_id {l : List Char} (h : ∀ c ∈ l, c ≠ '/') : rbc l = l := by
  induction l with
  | nil => rfl
  | cons c rest ih =>
    have hc : c ≠ '/' := h c (List.mem_cons_self c rest)
    have ih2 := ih (fun d hd => h d (List.mem_cons_of_mem c hd))
    simp only [rbc, if_neg hc, ih2]

theorem rtcWs_no_match :
    ∀ (l acc : List Char), noCloserAhead l →
      rtcWs l acc = ',' :: (acc.reverse ++ rtc l) := by
  intro l
  induction l with
  | nil =>
    intro acc _
    simp [rtcWs, rtc]
  | cons c rest ih =>
    intro acc hnc
    by_cases hws : isPyWs c = true
    · have hnc2 : noCloserAhead rest := by
        intro d hd
        apply hnc d
        simpa [List.dropWhile_cons, hws] using hd
      have hcomma : c ≠ ',' := by
        intro he
        rw [he] at hws
        exact absurd hws (by decide)
      have step : rtcWs (c :: rest) acc = rtcWs rest (c :: acc) := by
        simp only [rtcWs, hws, if_true]
      rw [step, ih (c :: acc) hnc2]
      simp only [List.reverse_cons, rtc, if_neg hcomma]
      simp
    · have hd : ((c :: rest).dropWhile isPyWs).head? = some c := by
        simp [List.dropWhile_cons, hws]
      have hcl := hnc c hd
      by_cases hcm : c = ','
      · subst hcm
        have step : rtcWs (',' :: rest) acc =
            (',' :: acc.reverse) ++ rtcWs rest [] := by
          simp only [rtcWs, hws]
          simp
        rw [step]
        simp only [rtc, if_pos rfl]
        simp
      · have hnotcloser : ¬ (c = '\x7d' ∨ c = ']') := by
          rintro (h1 | h1)
          · exact hcl.1 h1
          · exact hcl.2 h1
        have step : rtcWs (c :: rest) acc =
            (',' :: acc.reverse) ++ c :: rtc rest := by
          simp only [rtcWs, hws, hnotcloser, hcm]
          simp
        rw [step]
        simp only [rtc, if_neg hcm]
        simp

theorem noCloserAhead_append {v r : List Char}
    (hv : ∀ c ∈ v, c ≠ '\x7d' ∧ c ≠ ']') (hr : r.head? = some '"') :
    noCloserAhead (v ++ r) := by
  intro c hc
  rw [List.dropWhile_append] at hc
  split at hc
  · rcases r with _ | ⟨rh, rt⟩
    · simp at hr
    · have hrh : rh = '"' := by
        simpa using hr
      subst hrh
      rw [List.dropWhile_cons, if_neg (by decide)] at hc
      have hcq : '"' = c := by simpa using hc
      subst hcq
      exact ⟨by decide, by decide⟩
  · rename_i hne
    rcases hdw : v.dropWhile isPyWs with _ | ⟨d, dt⟩
    · rw [hdw] at hne
      simp at hne
    · rw [hdw] at hc
      have hcd : d = c := by simpa using hc
      subst hcd
      have hmem : d ∈ v := by
        have hsub := List.dropWhile_sublist (l := v) (p := isPyWs)
        exact hsub.subset (by rw [hdw]; exact List.mem_cons_self d dt)
      exact hv d hmem

theorem rtc_append_safe :
    ∀ (v r : List Char), (∀ c ∈ v, c ≠ '\x7d' ∧ c ≠ ']') →
      r.head? = some '"' → rtc (v ++ r) = v ++ rtc r := by
  intro v
  induction v with
  | nil => intro r _ _; simp
  | cons c v2 ih =>
    intro r hv hr
    have hv2 : ∀ d ∈ v2, d ≠ '\x7d' ∧ d ≠ ']' :=
      fun d hd => hv d (List.mem_cons_of_mem c hd)
    by_cases hcm : c = ','
    · subst hcm
      have step : rtc ((',' :: v2) ++ r) = rtcWs (v2 ++ r) [] := by
        simp [rtc]
      rw [step, rtcWs_no_match (v2 ++ r) [] (noCloserAhead_append hv2 hr)]
      simp [rtc, ih r hv2 hr]
    · have step : rtc ((c :: v2) ++ r) = c :: rtc (v2 ++ r) := by
        simp [rtc, if_neg hcm]
      rw [step, ih r hv2 hr]
      simp

theorem renderReply_pre (loc et sev dur : List Char) :
    renderReply loc et sev dur =
      renderPre loc et sev dur ++ ('"' :: '\x7d' :: []) := by
  simp [renderReply, renderPre]

theorem renderPre_chars {P : Char → Prop} {loc et sev dur : List Char}
    (hb : P '\x7b') (hq : P '"') (hco : P ':') (hsp : P ' ') (hcm : P ',')
    (hk1 : ∀ c ∈ locKey, P c) (hk2 : ∀ c ∈ etKey, P c)
    (hk3 : ∀ c ∈ sevKey, P c) (hk4 : ∀ c ∈ durKey, P c)
    (h1 : ∀ c ∈ loc, P c) (h2 : ∀ c ∈ et, P c)
    (h3 : ∀ c ∈ sev, P c) (h4 : ∀ c ∈ dur, P c) :
    ∀ c ∈ renderPre loc et sev dur, P c := by
  intro c hc
  simp only [renderPre, List.mem_cons, List.mem_append] at hc
  rcases hc with rfl | rfl | hc | rfl | rfl | rfl | rfl | hc | rfl | rfl | rfl | rfl |
    hc | rfl | rfl | rfl | rfl | hc | rfl | rfl | rfl | rfl | hc | rfl | rfl | rfl | rfl |
    hc | rfl | rfl | rfl | rfl | hc | rfl | rfl | rfl | rfl | hc
  all_goals first
    | exact hb | exact hq | exact hco | exact hsp | exact hcm
    | exact hk1 c hc | exact hk2 c hc | exact hk3 c hc | exact hk4 c hc
    | exact h1 c hc | exact h2 c hc | exact h3 c hc | exact h4 c hc

theorem stripList_shape (m : List Char) :
    stripList ('\x7b' :: (m ++ ['\x7d'])) = '\x7b' :: (m ++ ['\x7d']) := by
  have h1 : List.dropWhile isPyWs ('\x7b' :: (m ++ ['\x7d'])) =
      '\x7b' :: (m ++ ['\x7d']) := by
    rw [List.dropWhile_cons]
    simp [show isPyWs '\x7b' = false from by decide]
  have h2 : (('\x7b' : Char) :: (m ++ ['\x7d'])).reverse =
      '\x7d' :: (m.reverse ++ ['\x7b']) := by
    simp
  have h3 : List.dropWhile isPyWs ('\x7d' :: (m.reverse ++ ['\x7b'])) =
      '\x7d' :: (m.reverse ++ ['\x7b']) := by
    rw [List.dropWhile_cons]
    simp [show isPyWs '\x7d' = false from by decide]
  rw [stripList, h1, h2, h3, ← h2, List.reverse_reverse]

theorem braceSlice_shape (m : List Char) :
    braceSlice ('\x7b' :: (m ++ ['\x7d'])) = some ('\x7b' :: (m ++ ['\x7d'])) := by
  have h1 : List.dropWhile (fun c => ¬ c = '\x7b') ('\x7b' :: (m ++ ['\x7d'])) =
      '\x7b' :: (m ++ ['\x7d']) := by
    rw [List.dropWhile_cons]
    simp
  have h2 : (('\x7b' : Char) :: (m ++ ['\x7d'])).reverse =
      '\x7d' :: (m.reverse ++ ['\x7b']) := by
    simp
  have h3 : List.dropWhile (fun c => ¬ c = '\x7d') ('\x7d' :: (m.reverse ++ ['\x7b'])) =
      '\x7d' :: (m.reverse ++ ['\x7b']) := by
    rw [List.dropWhile_cons]
    simp
  have h4 : 2 ≤ (('\x7b' : Char) :: (m ++ ['\x7d'])).length := by
    simp
  simp only [braceSlice]
  rw [h1, h2, h3, ← h2, List.reverse_reverse, if_pos h4]

theorem parseJString_safe :
    ∀ (s rest : List Char), jsonSafe s →
      parseJString (s ++ '"' :: rest) = some (s, rest) := by
  intro s
  induction s with
  | nil =>
    intro rest _
    simp [parseJString]
  | cons c s2 ih =>
    intro rest hsafe
    have hc := hsafe c (List.mem_cons_self c s2)
    have hs2 : jsonSafe s2 := fun d hd => hsafe d (List.mem_cons_of_mem c hd)
    have h32 : ¬ c.toNat < 32 := by
      have := hc.2.2
      omega
    simp only [List.cons_append, parseJString, if_neg hc.1, if_neg hc.2.1,
      if_neg h32, List.append_eq]
    rw [ih rest hs2]
    rfl

theorem skipWs_cons_neg {c : Char} (l : List Char) (h : isJsonWs c = false) :
    skipWs (c :: l) = c :: l := by
  simp only [skipWs, List.dropWhile_cons, h]
  exact if_neg Bool.false_ne_true

theorem skipWs_cons_pos {c : Char} (l : List Char) (h : isJsonWs c = true) :
    skipWs (c :: l) = skipWs l := by
  simp [skipWs, List.dropWhile_cons, h]

/-! ### One-step unfolding lemmas for the fuel-indexed parser -/

theorem parseVal_succ (fuel : Nat) (l : List Char) :
    parseVal (fuel + 1) l =
      match skipWs l with
      | [] => none
      | c :: rest =>
        if c = '\x7b' then parseObjStart fuel rest
        else if c = '[' then parseArrStart fuel rest
        else if c = '"' then (parseJString rest).map (fun p => (.str p.1, p.2))
        else if c = 't' ∧ rest.take 3 = ('r' :: 'u' :: 'e' :: []) then
          some (.bool true, rest.drop 3)
        else if c = 'f' ∧ rest.take 4 = ('a' :: 'l' :: 's' :: 'e' :: []) then
          some (.bool false, rest.drop 4)
        else if c = 'n' ∧ rest.take 3 = ('u' :: 'l' :: 'l' :: []) then
          some (.null, rest.drop 3)
        else (parseNumber (c :: rest)).map (fun p => (.num p.1, p.2)) := rfl

theorem parseObjStart_succ (fuel : Nat) (l : List Char) :
    parseObjStart (fuel + 1) l =
      match skipWs l with
      | [] => none
      | c :: rest =>
        if c = '\x7d' then some (.obj [], rest)
        else (parseMembers fuel (c :: rest)).map (fun p => (.obj p.1, p.2)) := rfl

theorem parseMembers_succ (fuel : Nat) (l : List Char) :
    parseMembers (fuel + 1) l =
      match skipWs l with
      | [] => none
      | c :: rest =>
        if c = '"' then
          match parseJString rest with
          | none => none
          | some (key, rest2) =>
            match skipWs rest2 with
            | [] => none
            | c2 :: rest3 =>
              if c2 = ':' then
                match parseVal fuel rest3 with
                | none => none
                | some (v, rest4) =>
                  match skipWs rest4 with
                  | [] => none
                  | c3 :: rest5 =>
                    if c3 = ',' then
                      (parseMembers fuel rest5).map (fun p => ((key, v) :: p.1, p.2))
                    else if c3 = '\x7d' then some ([(key, v)], rest5)
                    else none
              else none
        else none := rfl

/-- Parsing the string value of a member: one space, the quoted body. -/
theorem parseVal_strField (f : Nat) (v tail : List Char) (hv : jsonSafe v) :
    parseVal (f + 1) (' ' :: '"' :: (v ++ '"' :: tail)) = some (.str v, tail) := by
  rw [parseVal_succ, skipWs_cons_pos _ (by decide), skipWs_cons_neg _ (by decide)]
  show (if ('"' : Char) = '\x7b' then _ else _) = _
  rw [if_neg (by decide), if_neg (by decide), if_pos rfl, parseJString_safe v tail hv]
  rfl

/-- One `"key": "value",` member followed by more members. -/
theorem parseMembers_more (f : Nat) (key v r : List Char) (l : List Char)
    (hl : skipWs l = '"' :: (key ++ '"' :: ':' :: ' ' :: '"' ::
      (v ++ '"' :: ',' :: r)))
    (hkey : jsonSafe key) (hv : jsonSafe v) :
    parseMembers (f + 2) l =
      (parseMembers (f + 1) r).map (fun p => ((key, Json.str v) :: p.1, p.2)) := by
  rw [show f + 2 = (f + 1) + 1 from rfl, parseMembers_succ, hl]
  show (if ('"' : Char) = '"' then _ else _) = _
  rw [if_pos rfl, parseJString_safe key _ hkey]
  dsimp only []
  rw [skipWs_cons_neg _ (by decide)]
  show (if (':' : Char) = ':' then _ else _) = _
  rw [if_pos rfl, parseVal_strField f v (',' :: r) hv]
  dsimp only []
  rw [skipWs_cons_neg _ (by decide)]
  show (if (',' : Char) = ',' then _ else _) = _
  rw [if_pos rfl]

/-- The final `"key": "value"}` member. -/
theorem parseMembers_last (f : Nat) (key v r : List Char) (l : List Char)
    (hl : skipWs l = '"' :: (key ++ '"' :: ':' :: ' ' :: '"' ::
      (v ++ '"' :: '\x7d' :: r)))
    (hkey : jsonSafe key) (hv : jsonSafe v) :
    parseMembers (f + 2) l = some ([(key, Json.str v)], r) := by
  rw [show f + 2 = (f + 1) + 1 from rfl, parseMembers_succ, hl]
  show (if ('"' : Char) = '"' then _ else _) = _
  rw [if_pos rfl, parseJString_safe key _ hkey]
  dsimp only []
  rw [skipWs_cons_neg _ (by decide)]
  show (if (':' : Char) = ':' then _ else _) = _
  rw [if_pos rfl, parseVal_strField f v ('\x7d' :: r) hv]
  dsimp only []
  rw [skipWs_cons_neg _ (by decide)]
  show (if ('\x7d' : Char) = ',' then _ else _) = _
  rw [if_neg (by decide), if_pos rfl]

/-! ### The cleanup pipeline leaves the canonical reply untouched -/

theorem safeChunk_jsonSafe {s : List Char} (h : safeChunk s) : jsonSafe s :=
  fun c hc => ⟨(h c hc).1, (h c hc).2.1, (h c hc).2.2.2.2.2.2.2⟩

theorem severity_safeChunk {sev : List Char} (h : sev ∈ severitySet) :
    safeChunk sev := by
  simp only [severitySet, List.mem_cons, List.not_mem_nil, or_false] at h
  rcases h with rfl | rfl | rfl | rfl
  · decide
  · decide
  · decide
  · decide

theorem renderReply_shape (loc et sev dur : List Char) :
    renderReply loc et sev dur =
      '\x7b' :: (('"' :: (locKey ++ '"' :: ':' :: ' ' :: '"' :: (loc ++
        '"' :: ',' :: ' ' :: '"' :: (etKey ++ '"' :: ':' :: ' ' :: '"' :: (et ++
          '"' :: ',' :: ' ' :: '"' :: (sevKey ++ '"' :: ':' :: ' ' :: '"' :: (sev ++
            '"' :: ',' :: ' ' :: '"' :: (durKey ++ '"' :: ':' :: ' ' :: '"' ::
              (dur ++ ['"']))))))))) ++ ['\x7d']) := by
  simp [renderReply]

theorem renderReply_chars {P : Char → Prop} {loc et sev dur : List Char}
    (hb : P '\x7b') (hcb : P '\x7d') (hq : P '"') (hco : P ':') (hsp : P ' ')
    (hcm : P ',')
    (hk1 : ∀ c ∈ locKey, P c) (hk2 : ∀ c ∈ etKey, P c)
    (hk3 : ∀ c ∈ sevKey, P c) (hk4 : ∀ c ∈ durKey, P c)
    (h1 : ∀ c ∈ loc, P c) (h2 : ∀ c ∈ et, P c)
    (h3 : ∀ c ∈ sev, P c) (h4 : ∀ c ∈ dur, P c) :
    ∀ c ∈ renderReply loc et sev dur, P c := by
  intro c hc
  rw [renderReply_pre, List.mem_append] at hc
  rcases hc with hc | hc
  · exact renderPre_chars hb hq hco hsp hcm hk1 hk2 hk3 hk4 h1 h2 h3 h4 c hc
  · simp only [List.mem_cons, List.not_mem_nil, or_false] at hc
    rcases hc with rfl | rfl
    · exact hq
    · exact hcb

theorem stripList_renderReply (loc et sev dur : List Char) :
    stripList (renderReply loc et sev dur) = renderReply loc et sev dur := by
  rw [renderReply_shape]
  exact stripList_shape _

theorem fences_renderReply (loc et sev dur : List Char) :
    ("```").data.isPrefixOf (renderReply loc et sev dur) = false := rfl

theorem rlc_renderReply {loc et sev dur : List Char} (hsl : safeChunk loc)
    (hse : safeChunk et) (hss : safeChunk sev) (hsd : safeChunk dur) :
    rlc (renderReply loc et sev dur) = renderReply loc et sev dur := by
  refine rlc_id (renderReply_chars (by decide) (by decide) (by decide) (by decide)
    (by decide) (by decide) (by decide) (by decide) (by decide) (by decide)
    ?_ ?_ ?_ ?_)
  · exact fun c hc => (hsl c hc).2.2.2.2.2.2.1
  · exact fun c hc => (hse c hc).2.2.2.2.2.2.1
  · exact fun c hc => (hss c hc).2.2.2.2.2.2.1
  · exact fun c hc => (hsd c hc).2.2.2.2.2.2.1

theorem rbc_renderReply {loc et sev dur : List Char} (hsl : safeChunk loc)
    (hse : safeChunk et) (hss : safeChunk sev) (hsd : safeChunk dur) :
    rbc (renderReply loc et sev dur) = renderReply loc et sev dur := by
  refine rbc_id (renderReply_chars (by decide) (by decide) (by decide) (by decide)
    (by decide) (by decide) (by decide) (by decide) (by decide) (by decide)
    ?_ ?_ ?_ ?_)
  · exact fun c hc => (hsl c hc).2.2.2.2.2.2.1
  · exact fun c hc => (hse c hc).2.2.2.2.2.2.1
  · exact fun c hc => (hss c hc).2.2.2.2.2.2.1
  · exact fun c hc => (hsd c hc).2.2.2.2.2.2.1

theorem rtc_renderReply {loc et sev dur : List Char} (hsl : safeChunk loc)
    (hse : safeChunk et) (hss : safeChunk sev) (hsd : safeChunk dur) :
    rtc (renderReply loc et sev dur) = renderReply loc et sev dur := by
  rw [renderReply_pre]
  have hnc : ∀ c ∈ renderPre loc et sev dur, c ≠ '\x7d' ∧ c ≠ ']' := by
    refine renderPre_chars (by decide) (by decide) (by decide) (by decide)
      (by decide) (by decide) (by decide) (by decide) (by decide) ?_ ?_ ?_ ?_
    · exact fun c hc => ⟨(hsl c hc).2.2.2.1, (hsl c hc).2.2.2.2.2.1⟩
    · exact fun c hc => ⟨(hse c hc).2.2.2.1, (hse c hc).2.2.2.2.2.1⟩
    · exact fun c hc => ⟨(hss c hc).2.2.2.1, (hss c hc).2.2.2.2.2.1⟩
    · exact fun c hc => ⟨(hsd c hc).2.2.2.1, (hsd c hc).2.2.2.2.2.1⟩
  rw [rtc_append_safe (renderPre loc et sev dur) ('"' :: '\x7d' :: []) hnc rfl]
  have : rtc ('"' :: '\x7d' :: []) = '"' :: '\x7d' :: [] := by decide
  rw [this]

theorem braceSlice_renderReply (loc et sev dur : List Char) :
    braceSlice (renderReply loc et sev dur) = some (renderReply loc et sev dur) := by
  rw [renderReply_shape]
  exact braceSlice_shape _

/-! ### `json.loads` on the canonical reply -/

theorem parseVal_renderReply (k : Nat) {loc et sev dur : List Char}
    (hl : jsonSafe loc) (he : jsonSafe et) (hs : jsonSafe sev) (hd : jsonSafe dur) :
    parseVal (k + 7) (renderReply loc et sev dur) =
      some (.obj [(locKey, .str loc), (etKey, .str et), (sevKey, .str sev),
        (durKey, .str dur)], []) := by
  rw [show k + 7 = (k + 6) + 1 from rfl, parseVal_succ, renderReply,
    skipWs_cons_neg _ (by decide)]
  show (if ('\x7b' : Char) = '\x7b' then _ else _) = _
  rw [if_pos rfl, show k + 6 = (k + 5) + 1 from rfl, parseObjStart_succ,
    skipWs_cons_neg _ (by decide)]
  show (if ('"' : Char) = '\x7d' then _ else _) = _
  rw [if_neg (by decide)]
  rw [show k + 5 = (k + 3) + 2 from rfl,
    parseMembers_more (k + 3) locKey loc _ _ (skipWs_cons_neg _ (by decide))
      (by decide) hl]
  rw [show k + 3 + 1 = (k + 2) + 2 from rfl,
    parseMembers_more (k + 2) etKey et _ _
      (by rw [skipWs_cons_pos _ (by decide), skipWs_cons_neg _ (by decide)])
      (by decide) he]
  rw [show k + 2 + 1 = (k + 1) + 2 from rfl,
    parseMembers_more (k + 1) sevKey sev _ _
      (by rw [skipWs_cons_pos _ (by decide), skipWs_cons_neg _ (by decide)])
      (by decide) hs]
  rw [show k + 1 + 1 = k + 2 from rfl,
    parseMembers_last k durKey dur _ _
      (by rw [skipWs_cons_pos _ (by decide), skipWs_cons_neg _ (by decide)])
      (by decide) hd]
  rfl

theorem jsonParse_renderReply {loc et sev dur : List Char}
    (hl : jsonSafe loc) (he : jsonSafe et) (hs : jsonSafe sev) (hd : jsonSafe dur) :
    jsonParse (renderReply loc et sev dur) =
      some (.obj [(locKey, .str loc), (etKey, .str et), (sevKey, .str sev),
        (durKey, .str dur)]) := by
  have hlen : 6 ≤ (renderReply loc et sev dur).length := by
    rw [renderReply_pre]
    simp [renderPre]
    omega
  obtain ⟨k, hk⟩ : ∃ k, (renderReply loc et sev dur).length + 1 = k + 7 :=
    ⟨(renderReply loc et sev dur).length - 6, by omega⟩
  rw [jsonParse, hk, parseVal_renderReply k hl he hs hd]
  rfl

theorem extract_json_renderReply {loc et sev dur : List Char}
    (hsl : safeChunk loc) (hse : safeChunk et) (hss : safeChunk sev)
    (hsd : safeChunk dur) :
    extract_json (renderReply loc et sev dur) =
      some (.obj [(locKey, .str loc), (etKey, .str et), (sevKey, .str sev),
        (durKey, .str dur)]) := by
  have hfence : defenceStep (renderReply loc et sev dur) =
      renderReply loc et sev dur := by
    rw [defenceStep, fences_renderReply, if_neg Bool.false_ne_true]
  have hslice : sliceStep (renderReply loc et sev dur) =
      renderReply loc et sev dur := by
    rw [sliceStep, braceSlice_renderReply]
  rw [extract_json, stripList_renderReply, hfence, rlc_renderReply hsl hse hss hsd,
    rbc_renderReply hsl hse hss hsd, rtc_renderReply hsl hse hss hsd, hslice]
  exact jsonParse_renderReply (safeChunk_jsonSafe hsl) (safeChunk_jsonSafe hse)
    (safeChunk_jsonSafe hss) (safeChunk_jsonSafe hsd)

/-! ### Claim theorems for the normalization pipeline -/

/-- Claim C7: blank input fails with HTTP 400 before any call to the
generation or geocoding service is made. -/
theorem parse_news_empty_input_400
    (apiKey : Option (List Char)) (model : List Char)
    (gen : List Char → Except Unit (List Char)) (geo : List Char → GeoResponse)
    (text : List Char) (h : ∀ c ∈ text, isPyWs c = true) :
    parse_news apiKey model gen geo text = (.clientError 400, []) := by
  rw [parse_news, stripList_of_all_ws h, if_pos rfl]

/-- Witness for the C7 theorem at a concrete blank input. -/
theorem parse_news_empty_input_400_witness :
    parse_news (some (("k").data)) (("gemini-2.5-flash").data)
      (fun _ => .error ()) (fun _ => .empty) (("   ").data) =
      (.clientError 400, []) :=
  parse_news_empty_input_400 (some (("k").data)) (("gemini-2.5-flash").data)
    (fun _ => .error ()) (fun _ => .empty) (("   ").data) (by decide)

/-- Claim C9, counterexample: the reply
`{"location": "улица Абая//Гоголя", "event_type": "accident",
"severity": "low", "duration": "1 час"}` is well formed with both
enumerated fields in range, yet normalization fails the record: the `//`
inside the location value is taken for a line comment by the cleanup, the
rest of the line is deleted, and `json.loads` raises — no record is
returned. -/
theorem normalize_wellformed_reply_cex :
    ("accident").data ∈ eventTypeSet ∧
    ("low").data ∈ severitySet ∧
    extract_json replySlashLocation = none ∧
    (parse_with_gemini (some (("k").data)) (("m").data)
        (fun _ => .ok replySlashLocation) (fun _ => .empty) (("t").data)).1 =
      .error .jsonDecode := by
  exact ⟨by decide, by decide, rfl, rfl⟩

/-- Claim C9, amended: a well-formed structured reply whose fields are in
range is normalized successfully into a record with every field populated
and the enumerated fields inside their sets, provided the field values
contain none of the characters the cleanup or the strict JSON parser
destroys — no slash (eaten by the comment regexes), no brace or bracket
(corrupting the trailing-comma and brace-slice steps), no quote or
backslash (breaking the string literal), and no control characters
(rejected by `json.loads`). -/
theorem normalize_wellformed_reply
    (geo : List Char → GeoResponse) (apiKey model text : List Char)
    {loc et sev dur : List Char}
    (hloc : loc ≠ []) (het : et ≠ []) (hdur : dur ≠ [])
    (hsl : safeChunk loc) (hse : safeChunk et) (hsd : safeChunk dur)
    (hets : et ∈ eventTypeSet) (hsevs : sev ∈ severitySet) :
    (parse_with_gemini (some apiKey) model
        (fun _ => .ok (renderReply loc et sev dur)) geo text).1 =
      .ok { location := loc, event_type := et, severity := sev, duration := dur,
            coordinates := geocode_street geo loc,
            raw_model_response :=
              some [(("provider").data, ("gemini").data),
                (("model").data, model)] } ∧
    et ∈ eventTypeSet ∧ sev ∈ severitySet := by
  refine ⟨?_, hets, hsevs⟩
  have hss : safeChunk sev := severity_safeChunk hsevs
  rw [parse_with_gemini, if_neg (by simp)]
  dsimp only []
  rw [extract_json_renderReply hsl hse hss hsd]
  dsimp only []
  rw [show jlookup [(locKey, Json.str loc), (etKey, Json.str et),
      (sevKey, Json.str sev), (durKey, Json.str dur)] locKey =
      some (Json.str loc) from rfl]
  dsimp only []
  rw [show validateParsedNews model [(locKey, Json.str loc), (etKey, Json.str et),
      (sevKey, Json.str sev), (durKey, Json.str dur)] (geocode_street geo loc) =
      (if sev ∈ severitySet then
        Except.ok
          { location := loc, event_type := et, severity := sev,
            duration := dur, coordinates := geocode_street geo loc,
            raw_model_response := some [(("provider").data, ("gemini").data),
              (("model").data, model)] }
      else Except.error ParseErr.validation) from rfl]
  rw [if_pos hsevs]

/-- Witness for the C9 theorem at concrete field values. -/
theorem normalize_wellformed_reply_witness :
    (parse_with_gemini (some (("k").data)) (("gemini-2.5-flash").data)
        (fun _ => .ok (renderReply (("улица Абая").data) (("accident").data)
          (("medium").data) (("2 часа").data)))
        (fun _ => .empty) (("t").data)).1 =
      .ok { location := ("улица Абая").data, event_type := ("accident").data,
            severity := ("medium").data, duration := ("2 часа").data,
            coordinates := geocode_street (fun _ => .empty) (("улица Абая").data),
            raw_model_response :=
              some [(("provider").data, ("gemini").data),
                (("model").data, ("gemini-2.5-flash").data)] } ∧
    ("accident").data ∈ eventTypeSet ∧ ("medium").data ∈ severitySet :=
  normalize_wellformed_reply (fun _ => .empty) (("k").data)
    (("gemini-2.5-flash").data) (("t").data) (by decide) (by decide) (by decide)
    (by decide) (by decide) (by decide) (by decide) (by decide)

/-- Claim C2, counterexample: an out-of-set severity fails the whole record
with a validation error instead of being downgraded to `low`, and an
out-of-set event type is kept verbatim instead of being replaced by
`other`. -/
theorem normalize_enum_defaults_cex :
    (parse_with_gemini (some (("k").data)) (("m").data)
        (fun _ => .ok replyBadSeverity) (fun _ => .empty) (("t").data)).1 =
      .error .validation ∧
    ("extreme").data ∉ severitySet ∧
    (parse_with_gemini (some (("k").data)) (("m").data)
        (fun _ => .ok replyBadEventType) (fun _ => .empty) (("t").data)).1 =
      .ok { location := ("улица Абая").data, event_type := ("наводнение").data,
            severity := ("low").data, duration := ("3 часа").data,
            coordinates := cityCenter,
            raw_model_response :=
              some [(("provider").data, ("gemini").data),
                (("model").data, ("m").data)] } ∧
    ("наводнение").data ∉ eventTypeSet ∧
    ("наводнение").data ≠ ("other").data := by
  exact ⟨rfl, by decide, rfl, by decide, by decide⟩

/-- Claim C2, amended: severity values outside the enumerated set make the
whole record fail validation (no `low` default is substituted), while
event-type values are not validated at all — any string is accepted
verbatim, never replaced by `other`. -/
theorem validate_no_enum_defaults :
    (∀ (model : List Char) (fields : List (List Char × Json))
      (coords : Coordinates) (sev : List Char),
      getStr fields sevKey = some sev → sev ∉ severitySet →
      exceptOk (validateParsedNews model fields coords) = false) ∧
    (∀ (model loc et sev dur : List Char) (coords : Coordinates),
      sev ∈ severitySet →
      validateParsedNews model
        [(locKey, .str loc), (etKey, .str et), (sevKey, .str sev),
          (durKey, .str dur)] coords =
        .ok { location := loc, event_type := et, severity := sev, duration := dur,
              coordinates := coords,
              raw_model_response :=
                some [(("provider").data, ("gemini").data),
                  (("model").data, model)] }) := by
  constructor
  · intro model fields coords sev hsev hnot
    by_cases hrmr : (jlookup fields rmrKey).isSome = true
    · rw [validateParsedNews, if_pos hrmr]
      rfl
    · rcases h1 : getStr fields locKey with _ | loc2
      · rw [validateParsedNews, if_neg hrmr, h1]
        rfl
      · rcases h2 : getStr fields etKey with _ | et2
        · rw [validateParsedNews, if_neg hrmr, h1, h2]
          rfl
        · rcases h4 : getStr fields durKey with _ | dur2
          · rw [validateParsedNews, if_neg hrmr, h1, h2, hsev, h4]
            rfl
          · rw [validateParsedNews, if_neg hrmr, h1, h2, hsev, h4]
            dsimp only []
            rw [if_neg hnot]
            rfl
  · intro model loc et sev dur coords hsev
    rw [show validateParsedNews model
        [(locKey, .str loc), (etKey, .str et), (sevKey, .str sev),
          (durKey, .str dur)] coords =
      (if sev ∈ severitySet then
        Except.ok
          { location := loc, event_type := et, severity := sev,
            duration := dur, coordinates := coords,
            raw_model_response := some [(("provider").data, ("gemini").data),
              (("model").data, model)] }
      else Except.error ParseErr.validation) from rfl]
    rw [if_pos hsev]

/-- Witness for the amended C2 theorem at concrete fields. -/
theorem validate_no_enum_defaults_witness :
    exceptOk (validateParsedNews (("m").data)
      [(locKey, .str (("а").data)), (etKey, .str (("accident").data)),
        (sevKey, .str (("extreme").data)), (durKey, .str (("1").data))]
      cityCenter) = false ∧
    validateParsedNews (("m").data)
      [(locKey, .str (("а").data)), (etKey, .str (("ДТП").data)),
        (sevKey, .str (("low").data)), (durKey, .str (("1").data))] cityCenter =
      .ok { location := ("а").data, event_type := ("ДТП").data,
            severity := ("low").data, duration := ("1").data,
            coordinates := cityCenter,
            raw_model_response :=
              some [(("provider").data, ("gemini").data),
                (("model").data, ("m").data)] } :=
  ⟨validate_no_enum_defaults.1 (("m").data) _ cityCenter (("extreme").data) rfl
      (by decide),
    validate_no_enum_defaults.2 (("m").data) (("а").data) (("ДТП").data)
      (("low").data) (("1").data) cityCenter (by decide)⟩

/-- Claim C8, counterexample: a reply with the duration missing, and one
with an explicit null duration, both fail the record with a validation
error — the literal `unknown` is not substituted. -/
theorem duration_default_cex :
    (parse_with_gemini (some (("k").data)) (("m").data)
        (fun _ => .ok replyNoDuration) (fun _ => .empty) (("t").data)).1 =
      .error .validation ∧
    (parse_with_gemini (some (("k").data)) (("m").data)
        (fun _ => .ok replyNullDuration) (fun _ => .empty) (("t").data)).1 =
      .error .validation := by
  exact ⟨rfl, rfl⟩

/-- Claim C8, amended: a reply whose duration field is missing or an
explicit null fails the record's validation (pydantic requires `duration`
as a string and the code substitutes nothing); the record is not returned
with the literal `unknown`. -/
theorem validate_duration_required
    (model : List Char) (fields : List (List Char × Json)) (coords : Coordinates)
    (hdur : jlookup fields durKey = none ∨ jlookup fields durKey = some .null) :
    exceptOk (validateParsedNews model fields coords) = false := by
  have hd : getStr fields durKey = none := by
    rcases hdur with h | h
    · rw [getStr, h]
    · rw [getStr, h]
  by_cases hrmr : (jlookup fields rmrKey).isSome = true
  · rw [validateParsedNews, if_pos hrmr]
    rfl
  · rcases h1 : getStr fields locKey with _ | loc2
    · rw [validateParsedNews, if_neg hrmr, h1]
      rfl
    · rcases h2 : getStr fields etKey with _ | et2
      · rw [validateParsedNews, if_neg hrmr, h1, h2]
        rfl
      · rcases h3 : getStr fields sevKey with _ | sev2
        · rw [validateParsedNews, if_neg hrmr, h1, h2, h3]
          rfl
        · rw [validateParsedNews, if_neg hrmr, h1, h2, h3, hd]
          rfl

/-- Witness for the amended C8 theorem at concrete fields. -/
theorem validate_duration_required_witness :
    exceptOk (validateParsedNews (("m").data)
      [(locKey, .str (("а").data)), (etKey, .str (("accident").data)),
        (sevKey, .str (("low").data))] cityCenter) = false :=
  validate_duration_required (("m").data)
    [(locKey, .str (("а").data)), (etKey, .str (("accident").data)),
      (sevKey, .str (("low").data))] cityCenter (Or.inl rfl)

end KyzylordaDashboard
